import Mathlib

/-!
# Component/plugin registry and asset-instantiation core of lightmetrica-v3

A shallow embedding of the component substrate exercised by
`functest/example_custom_material.py`: the registry of implementation keys,
the instance store keyed by hierarchical locators, the scene-graph state
machine and the plugin loader.  The native core is not part of the visible
sources, so every definition below is modelled from the specification text.
-/

namespace Lightmetrica

/-- Modelled from the spec: a configuration value is a dynamically-typed
JSON-like tree (map/sequence/scalar) passed at construction time
(spec section 3, "Configuration value"). -/
inductive ConfigValue where
  | null : ConfigValue
  | bool (b : Bool) : ConfigValue
  | int (n : Int) : ConfigValue
  | str (s : String) : ConfigValue
  | arr (xs : List ConfigValue) : ConfigValue
  | obj (fields : List (String × ConfigValue)) : ConfigValue

/-- Modelled from the spec: field lookup in a string-keyed configuration
mapping; each Component variant "validates fields relevant to its variant". -/
def ConfigValue.getField (c : ConfigValue) (k : String) : Option ConfigValue :=
  match c with
  | .obj fields => (fields.find? (fun p => p.1 = k)).map Prod.snd
  | _ => none

/-- Modelled from the spec: an implementation key is a string pair
(interface name, variant name), e.g. `("material", "visualize_normal")`. -/
abbrev ImplementationKey : Type := String × String

/-- Modelled from the spec: a locator is an ordered sequence of path
segments identifying a live component instance (spec section 3). -/
abbrev Locator : Type := List String

/-- Modelled from the spec: a construction-time validation failure of a
Component variant ("bad or missing configuration fields", spec section 7). -/
inductive ValidationError where
  | missingField (name : String) : ValidationError
  | mistypedField (name : String) : ValidationError
deriving DecidableEq

/-- Modelled from the spec: the error taxonomy of the registry
(spec section 7): `UnknownKeyError`, `DuplicateKeyError` and
`ConstructionError` wrapping the component's own validation failure. -/
inductive RegistryError where
  | unknownKey (k : ImplementationKey) : RegistryError
  | duplicateKey (k : ImplementationKey) : RegistryError
  | construction (e : ValidationError) : RegistryError
deriving DecidableEq

/-- Modelled from the spec: the payload a factory produces, before the
instance store takes ownership: the key it was built under and the
validated state the construct step stored. -/
structure ComponentData where
  key : ImplementationKey
  state : ConfigValue

/-- Modelled from the spec: a factory is a function value producing a new
component from a raw configuration mapping, failing with a validation
error when required fields are absent or mistyped. -/
def Factory : Type := ConfigValue → Except ValidationError ComponentData

/-- Modelled from the spec: the process-wide registry mapping
implementation keys to factories (spec section 4.1). -/
structure Registry where
  entries : List (ImplementationKey × Factory)

namespace Registry

/-- Modelled from the spec: look up the factory registered for a key. -/
def lookup (r : Registry) (k : ImplementationKey) : Option Factory :=
  (r.entries.find? (fun p => p.1 = k)).map Prod.snd

/-- Modelled from the spec: `register(key, factory)` fails with
`DuplicateKeyError` if `key` is already registered, unless an explicit
override is requested, in which case the later factory wins. -/
def register (r : Registry) (k : ImplementationKey) (f : Factory)
    (override : Bool) : Except RegistryError Registry :=
  if r.entries.any (fun p => p.1 = k) then
    if override then
      .ok ⟨(k, f) :: r.entries.filter (fun p => ¬ p.1 = k)⟩
    else
      .error (.duplicateKey k)
  else
    .ok ⟨(k, f) :: r.entries⟩

/-- Modelled from the spec: `create(key, config)` fails with
`UnknownKeyError` if no factory matches, with `ConstructionError` wrapping
the component's own validation failure if the construct step rejects the
config, and otherwise returns the new component instance. -/
def create (r : Registry) (k : ImplementationKey) (config : ConfigValue) :
    Except RegistryError ComponentData :=
  match r.lookup k with
  | none => .error (.unknownKey k)
  | some f =>
    match f config with
    | .error e => .error (.construction e)
    | .ok c => .ok c

end Registry

/-- Modelled from the spec: running a factory as `create` does, wrapping a
validation failure in `ConstructionError`. -/
def applyFactory (f : Factory) (config : ConfigValue) :
    Except RegistryError ComponentData :=
  match f config with
  | .error e => .error (.construction e)
  | .ok c => .ok c

theorem lookup_register_override (r : Registry) (k : ImplementationKey)
    (f : Factory) (r' : Registry)
    (h : r.register k f true = .ok r') : r'.lookup k = some f := by
  unfold Registry.register at h
  by_cases hmem : r.entries.any (fun p => p.1 = k)
  · simp only [hmem, if_true] at h
    cases h
    simp [Registry.lookup]
  · simp only [hmem, if_false] at h
    cases h
    simp [Registry.lookup]

theorem create_eq_applyFactory (r : Registry) (k : ImplementationKey)
    (f : Factory) (h : r.lookup k = some f) (config : ConfigValue) :
    r.create k config = applyFactory f config := by
  unfold Registry.create applyFactory
  rw [h]

/-- C1: a second `register` of an already-present key without the override
flag fails with `DuplicateKeyError` and leaves the first registration in
effect (every `create` still uses the first factory); with the override
flag the second registration succeeds and every subsequent `create` of
that key uses the second factory. -/
theorem register_duplicate_rejected_override_wins
    (r : Registry) (k : ImplementationKey) (f1 f2 : Factory)
    (h : r.lookup k = some f1) :
    (r.register k f2 false = .error (.duplicateKey k) ∧
      ∀ config, r.create k config = applyFactory f1 config) ∧
    (∃ r', r.register k f2 true = .ok r' ∧
      ∀ config, r'.create k config = applyFactory f2 config) := by
  have hany : r.entries.any (fun p => p.1 = k) = true := by
    unfold Registry.lookup at h
    cases hf : r.entries.find? (fun p => p.1 = k) with
    | none => rw [hf] at h; simp at h
    | some p =>
      have hmem := List.mem_of_find?_eq_some hf
      have hpred := List.find?_some hf
      simp only [List.any_eq_true]
      exact ⟨p, hmem, by simpa using hpred⟩
  refine ⟨⟨?_, fun config => create_eq_applyFactory r k f1 h config⟩, ?_⟩
  · unfold Registry.register
    simp [hany]
  · refine ⟨⟨(k, f2) :: r.entries.filter (fun p => ¬ p.1 = k)⟩, ?_, ?_⟩
    · unfold Registry.register
      simp [hany]
    · intro config
      apply create_eq_applyFactory
      simp [Registry.lookup]

/-- Concrete factories and a one-entry registry used to exercise the
registry theorems on closed inputs. -/
def factoryA : Factory := fun _ => .ok ⟨("material", "visualize_normal"), .obj []⟩

def factoryB : Factory := fun config =>
  match config.getField "color" with
  | some v => .ok ⟨("material", "constant"), .obj [("color", v)]⟩
  | none => .error (.missingField "color")

def sampleRegistry : Registry :=
  ⟨[(("material", "visualize_normal"), factoryA)]⟩

/-- Witness for C1 at a concrete registry, key and pair of factories. -/
theorem register_duplicate_rejected_override_wins_witness :
    (sampleRegistry.register ("material", "visualize_normal") factoryB false =
        .error (.duplicateKey ("material", "visualize_normal")) ∧
      ∀ config, sampleRegistry.create ("material", "visualize_normal") config =
        applyFactory factoryA config) ∧
    (∃ r', sampleRegistry.register ("material", "visualize_normal") factoryB true =
        .ok r' ∧
      ∀ config, r'.create ("material", "visualize_normal") config =
        applyFactory factoryB config) :=
  register_duplicate_rejected_override_wins sampleRegistry
    ("material", "visualize_normal") factoryA factoryB rfl

/-- C2: `create(k, config)` fails with `UnknownKeyError` exactly when no
factory is registered for `k`, fails with `ConstructionError` wrapping the
component's own validation failure exactly when a registered factory's
construct step rejects `config`, and otherwise returns the new component
instance the factory produced. -/
theorem create_error_classification
    (r : Registry) (k : ImplementationKey) (config : ConfigValue) :
    ((∃ k', r.create k config = .error (.unknownKey k')) ↔ r.lookup k = none) ∧
    ((∃ e, r.create k config = .error (.construction e)) ↔
      (∃ f e, r.lookup k = some f ∧ f config = .error e)) ∧
    ((∃ c, r.create k config = .ok c) ↔
      (∃ f c, r.lookup k = some f ∧ f config = .ok c)) := by
  unfold Registry.create
  cases hl : r.lookup k with
  | none => simp
  | some f =>
    cases hf : f config with
    | error e => simp [hf]
    | ok c => simp [hf]

/-- Witness for C2 (no hypotheses to discharge beyond concrete inputs):
instantiated at the sample registry, an unregistered key and the empty
configuration object. -/
theorem create_error_classification_witness :
    ((∃ k', sampleRegistry.create ("material", "constant") (.obj []) =
        .error (.unknownKey k')) ↔
      sampleRegistry.lookup ("material", "constant") = none) ∧
    ((∃ e, sampleRegistry.create ("material", "constant") (.obj []) =
        .error (.construction e)) ↔
      (∃ f e, sampleRegistry.lookup ("material", "constant") = some f ∧
        f (.obj []) = .error e)) ∧
    ((∃ c, sampleRegistry.create ("material", "constant") (.obj []) = .ok c) ↔
      (∃ f c, sampleRegistry.lookup ("material", "constant") = some f ∧
        f (.obj []) = .ok c)) :=
  create_error_classification sampleRegistry ("material", "constant") (.obj [])

/-- Modelled from the spec: a live component instance owned by the
instance store: a process-unique identity plus the payload the factory
produced (spec section 3, "Component", and section 4.3). -/
structure Component where
  id : Nat
  data : ComponentData

/-- Modelled from the spec: `NameCollisionError` (locator path already in
use; spec section 7). -/
inductive StoreError where
  | nameCollision (l : Locator) : StoreError

/-- Modelled from the spec: the instance store owns all live component
instances keyed by locator; the counter supplies fresh identities so that
every live component has exactly one locator (spec sections 2 and 4.3). -/
structure InstanceStore where
  instances : List (Locator × Component)
  nextId : Nat

/-- Modelled from the spec: `isUnder root l` holds when `l` lies in the
subtree rooted at `root` (the root's own locator included). -/
def isUnder : Locator → Locator → Bool
  | [], _ => true
  | _ :: _, [] => false
  | a :: r, b :: l => a = b && isUnder r l

namespace InstanceStore

/-- Modelled from the spec: `insert(parent, name, instance)` appends
`name` as a new unique child segment under `parent`; fails with
`NameCollisionError` if the resulting locator already exists. -/
def insert (st : InstanceStore) (parent : Locator) (name : String)
    (d : ComponentData) : Except StoreError (InstanceStore × Locator) :=
  if st.instances.any (fun p => p.1 = parent ++ [name]) then
    .error (.nameCollision (parent ++ [name]))
  else
    .ok (⟨(parent ++ [name], ⟨st.nextId, d⟩) :: st.instances, st.nextId + 1⟩,
      parent ++ [name])

/-- Modelled from the spec: `resolve(locator)` is a total lookup that
returns the live component when the path names one and the distinguished
absent value otherwise; it never throws for a missing path. -/
def resolve (st : InstanceStore) (l : Locator) : Option Component :=
  (st.instances.find? (fun p => p.1 = l)).map Prod.snd

/-- Modelled from the spec: `remove(locator)` destroys the subtree rooted
at the locator depth-first (children before parent), invalidating every
locator under it; the second projection is the destruction order. -/
def remove (st : InstanceStore) (l : Locator) : InstanceStore × List Locator :=
  (⟨st.instances.filter (fun p => ¬ isUnder l p.1), st.nextId⟩,
    List.insertionSort (fun a b => List.length b ≤ List.length a)
      ((st.instances.filter (fun p => isUnder l p.1)).map Prod.fst))

/-- Modelled from the spec: the store invariant of section 4.3: no two
live instances share a locator, every live component has exactly one
locator (identities are unique), and identities stay below the freshness
counter. -/
def WF (st : InstanceStore) : Prop :=
  (st.instances.map Prod.fst).Nodup ∧
  (st.instances.map (fun p => p.2.id)).Nodup ∧
  ∀ p ∈ st.instances, p.2.id < st.nextId

end InstanceStore

theorem isUnder_append (l s : Locator) : isUnder l (l ++ s) = true := by
  induction l with
  | nil => rfl
  | cons a r ih => simp [isUnder, ih]

theorem exists_append_of_isUnder {a b : Locator} (h : isUnder a b = true) :
    ∃ s, b = a ++ s := by
  induction a generalizing b with
  | nil => exact ⟨b, rfl⟩
  | cons x r ih =>
    cases b with
    | nil => simp [isUnder] at h
    | cons y l =>
      simp only [isUnder, Bool.and_eq_true, decide_eq_true_eq] at h
      obtain ⟨rfl, hu⟩ := h
      obtain ⟨s, rfl⟩ := ih hu
      exact ⟨s, rfl⟩

theorem eq_of_isUnder_of_length_le {a b : Locator} (h : isUnder a b = true)
    (hl : List.length b ≤ List.length a) : a = b := by
  obtain ⟨s, rfl⟩ := exists_append_of_isUnder h
  cases s with
  | nil => simp
  | cons x t => simp at hl

theorem find?_filter_of_imp {α : Type} (xs : List α) (q r : α → Bool)
    (himp : ∀ x, q x = true → r x = true) :
    (xs.filter r).find? q = xs.find? q := by
  induction xs with
  | nil => rfl
  | cons x rest ih =>
    by_cases hq : q x = true
    · have hr := himp x hq
      simp [List.filter_cons, hr, List.find?, hq]
    · have hq' : q x = false := by
        cases hqx : q x with
        | false => rfl
        | true => exact absurd hqx hq
      by_cases hr : r x = true
      · simp [List.filter_cons, hr, List.find?, hq', ih]
      · have hr' : r x = false := by
          cases hrx : r x with
          | false => rfl
          | true => exact absurd hrx hr
        simp [List.filter_cons, hr', List.find?, hq', ih]

theorem insert_eq_ok {st st' : InstanceStore} {parent : Locator}
    {name : String} {d : ComponentData} {loc : Locator}
    (h : st.insert parent name d = .ok (st', loc)) :
    loc = parent ++ [name] ∧
    st.instances.any (fun p => p.1 = parent ++ [name]) = false ∧
    st'.instances = (parent ++ [name], ⟨st.nextId, d⟩) :: st.instances ∧
    st'.nextId = st.nextId + 1 := by
  unfold InstanceStore.insert at h
  by_cases hc : st.instances.any (fun p => p.1 = parent ++ [name]) = true
  · simp [hc] at h
  · have hc' : st.instances.any (fun p => p.1 = parent ++ [name]) = false :=
      Bool.eq_false_iff.mpr hc
    simp only [hc', Bool.false_eq_true, if_false, Except.ok.injEq, Prod.mk.injEq] at h
    obtain ⟨hst, hloc⟩ := h
    subst hst
    exact ⟨hloc.symm, hc', rfl, rfl⟩

theorem insert_wf {st st' : InstanceStore} {parent : Locator} {name : String}
    {d : ComponentData} {loc : Locator} (hwf : st.WF)
    (h : st.insert parent name d = .ok (st', loc)) : st'.WF := by
  obtain ⟨hnl, hni, hb⟩ := hwf
  obtain ⟨hloc, hfree, hinst, hnext⟩ := insert_eq_ok h
  have hnotmem : parent ++ [name] ∉ st.instances.map Prod.fst := by
    intro hm
    obtain ⟨p, hp, hfst⟩ := List.mem_map.mp hm
    have : st.instances.any (fun q => q.1 = parent ++ [name]) = true :=
      List.any_eq_true.mpr ⟨p, hp, by simp [hfst]⟩
    rw [hfree] at this
    exact Bool.false_ne_true this
  refine ⟨?_, ?_, ?_⟩
  · rw [hinst]
    simp only [List.map_cons, List.nodup_cons]
    exact ⟨hnotmem, hnl⟩
  · rw [hinst]
    simp only [List.map_cons, List.nodup_cons]
    refine ⟨?_, hni⟩
    intro hm
    obtain ⟨p, hp, hid⟩ := List.mem_map.mp hm
    exact Nat.ne_of_lt (hb p hp) hid
  · rw [hinst, hnext]
    intro p hp
    rcases List.mem_cons.mp hp with hh | ht
    · subst hh; exact Nat.lt_succ_self _
    · exact Nat.lt_succ_of_lt (hb p ht)

theorem remove_wf {st : InstanceStore} (l : Locator) (hwf : st.WF) :
    (st.remove l).1.WF := by
  obtain ⟨hnl, hni, hb⟩ := hwf
  refine ⟨?_, ?_, ?_⟩
  · exact hnl.sublist (List.Sublist.map _ (List.filter_sublist _))
  · exact hni.sublist (List.Sublist.map _ (List.filter_sublist _))
  · intro p hp
    exact hb p (List.mem_of_mem_filter hp)

theorem insert_collision {st : InstanceStore} {parent : Locator}
    {name : String} (d : ComponentData)
    (h : ∃ c, (parent ++ [name], c) ∈ st.instances) :
    st.insert parent name d = .error (.nameCollision (parent ++ [name])) := by
  obtain ⟨c, hc⟩ := h
  have hany : st.instances.any (fun p => p.1 = parent ++ [name]) = true :=
    List.any_eq_true.mpr ⟨(parent ++ [name], c), hc, by simp⟩
  unfold InstanceStore.insert
  simp [hany]

/-- C3: locator uniqueness is an invariant preserved by every instance
store operation: `insert` and `remove` preserve well-formedness, a
well-formed store gives every locator at most one live component and every
live component exactly one locator, `insert` fails with
`NameCollisionError` whenever the target locator already exists, and the
second of two inserts with the same parent and name always fails. -/
theorem locator_uniqueness_invariant :
    (∀ (st st' : InstanceStore) (parent : Locator) (name : String)
        (d : ComponentData) (loc : Locator),
      st.WF → st.insert parent name d = .ok (st', loc) → st'.WF) ∧
    (∀ (st : InstanceStore) (l : Locator), st.WF → (st.remove l).1.WF) ∧
    (∀ (st : InstanceStore), st.WF →
      (∀ (l : Locator) (c c' : Component),
        (l, c) ∈ st.instances → (l, c') ∈ st.instances → c = c') ∧
      (∀ (l l' : Locator) (c c' : Component),
        (l, c) ∈ st.instances → (l', c') ∈ st.instances → c.id = c'.id →
          l = l')) ∧
    (∀ (st : InstanceStore) (parent : Locator) (name : String)
        (d : ComponentData),
      (∃ c, (parent ++ [name], c) ∈ st.instances) →
      st.insert parent name d = .error (.nameCollision (parent ++ [name]))) ∧
    (∀ (st st' : InstanceStore) (parent : Locator) (name : String)
        (d d' : ComponentData) (loc : Locator),
      st.insert parent name d = .ok (st', loc) →
      st'.insert parent name d' = .error (.nameCollision (parent ++ [name]))) := by
  refine ⟨fun st st' parent name d loc hwf h => insert_wf hwf h,
    fun st l hwf => remove_wf l hwf, ?_, fun st parent name d h => insert_collision d h, ?_⟩
  · intro st hwf
    obtain ⟨hnl, hni, _⟩ := hwf
    constructor
    · intro l c c' hc hc'
      have := List.inj_on_of_nodup_map hnl hc hc' (by rfl)
      exact congrArg Prod.snd this
    · intro l l' c c' hc hc' hid
      have := List.inj_on_of_nodup_map hni hc hc' hid
      exact congrArg Prod.fst this
  · intro st st' parent name d d' loc h
    obtain ⟨hloc, _, hinst, _⟩ := insert_eq_ok h
    apply insert_collision
    exact ⟨⟨st.nextId, d⟩, by rw [hinst]; exact List.mem_cons_self _ _⟩

/-- A concrete store with one live instance under `$.assets.mat1`,
used to exercise the instance-store theorems on closed inputs. -/
def sampleData : ComponentData := ⟨("material", "visualize_normal"), .obj []⟩

def sampleStore : InstanceStore := ⟨[(["assets", "mat1"], ⟨0, sampleData⟩)], 1⟩

/-- Witness for C3: the empty store is well-formed and stays so across a
concrete insert, and a colliding insert into the sample store fails. -/
theorem locator_uniqueness_invariant_witness :
    sampleStore.insert ["assets"] "mat1" sampleData =
      .error (.nameCollision ["assets", "mat1"]) :=
  locator_uniqueness_invariant.2.2.2.1 sampleStore ["assets"] "mat1" sampleData
    ⟨⟨0, sampleData⟩, List.mem_singleton.mpr rfl⟩

/-- C4: `resolve` is total: for every locator, including one that names no
live instance, it returns the live component exactly when the path names
one, and the distinguished absent value otherwise — it never throws. -/
theorem resolve_total (st : InstanceStore) (l : Locator) (hwf : st.WF) :
    (∀ c, st.resolve l = some c ↔ (l, c) ∈ st.instances) ∧
    ((¬ ∃ c, (l, c) ∈ st.instances) → st.resolve l = none) := by
  obtain ⟨hnl, _, _⟩ := hwf
  constructor
  · intro c
    constructor
    · intro h
      unfold InstanceStore.resolve at h
      cases hf : st.instances.find? (fun p => p.1 = l) with
      | none => rw [hf] at h; simp at h
      | some p =>
        rw [hf] at h
        simp only [Option.map_some', Option.some.injEq] at h
        have hmem := List.mem_of_find?_eq_some hf
        have hfst := List.find?_some hf
        simp only [decide_eq_true_eq] at hfst
        have : p = (l, c) := by
          cases p with
          | mk a b => simp only at hfst h; rw [hfst, h]
        rw [this] at hmem
        exact hmem
    · intro hmem
      unfold InstanceStore.resolve
      cases hf : st.instances.find? (fun p => p.1 = l) with
      | none =>
        have := List.find?_eq_none.mp hf (l, c) hmem
        simp at this
      | some p =>
        have hpm := List.mem_of_find?_eq_some hf
        have hfst := List.find?_some hf
        simp only [decide_eq_true_eq] at hfst
        have hp : p = (l, c) := by
          have hc : (l, c) ∈ st.instances := hmem
          have := List.inj_on_of_nodup_map hnl hpm hc (by simpa using hfst)
          exact this
        rw [hp]
        rfl
  · intro habs
    unfold InstanceStore.resolve
    have : st.instances.find? (fun p => p.1 = l) = none := by
      apply List.find?_eq_none.mpr
      intro x hx hpx
      simp only [decide_eq_true_eq] at hpx
      apply habs
      refine ⟨x.2, ?_⟩
      have : x = (l, x.2) := by
        cases x with
        | mk a b => simp only at hpx ⊢; rw [hpx]
      rw [← this]
      exact hx
    rw [this]
    rfl

/-- Witness for C4 at the one-entry sample store and a locator that names
nothing. -/
theorem resolve_total_witness :
    ((∀ c, sampleStore.resolve ["assets", "missing"] = some c ↔
      (["assets", "missing"], c) ∈ sampleStore.instances) ∧
    ((¬ ∃ c, (["assets", "missing"], c) ∈ sampleStore.instances) →
      sampleStore.resolve ["assets", "missing"] = none)) :=
  resolve_total sampleStore ["assets", "missing"]
    ⟨List.nodup_singleton _, List.nodup_singleton _, by
      intro p hp
      simp only [sampleStore, List.mem_singleton] at hp
      rw [hp]
      exact Nat.lt_succ_self 0⟩

/-- C5: removing a live locator destroys exactly the subtree rooted there:
afterwards `resolve` returns absent for the locator and for every
descendant, locators outside the subtree resolve as before, the
destruction order covers exactly the removed subtree, and in that order no
ancestor precedes any of its descendants (children before parent). -/
theorem remove_destroys_subtree (st : InstanceStore) (l : Locator)
    (_hlive : ∃ c, (l, c) ∈ st.instances) :
    (∀ s : Locator, (st.remove l).1.resolve (l ++ s) = none) ∧
    (∀ l' : Locator, isUnder l l' = false →
      (st.remove l).1.resolve l' = st.resolve l') ∧
    (∀ l' : Locator, l' ∈ (st.remove l).2 ↔
      (isUnder l l' = true ∧ ∃ c, (l', c) ∈ st.instances)) ∧
    (st.remove l).2.Pairwise (fun a b => isUnder a b = true → a = b) := by
  refine ⟨?_, ?_, ?_, ?_⟩
  · intro s
    unfold InstanceStore.resolve InstanceStore.remove
    have hnone : (st.instances.filter
        (fun p => ¬ isUnder l p.1)).find? (fun p => p.1 = l ++ s) = none := by
      apply List.find?_eq_none.mpr
      intro x hx hpx
      simp only [decide_eq_true_eq] at hpx
      have hni := List.of_mem_filter hx
      simp only [decide_eq_true_eq] at hni
      exact hni (by rw [hpx]; exact isUnder_append l s)
    simp only at hnone ⊢
    rw [hnone]
    rfl
  · intro l' hout
    unfold InstanceStore.resolve InstanceStore.remove
    simp only
    rw [find?_filter_of_imp]
    intro x hq
    simp only [decide_eq_true_eq] at hq ⊢
    intro hu
    rw [hq] at hu
    rw [hout] at hu
    exact Bool.false_ne_true hu
  · intro l'
    unfold InstanceStore.remove
    simp only
    rw [(List.perm_insertionSort _ _).mem_iff]
    simp only [List.mem_map, List.mem_filter, decide_eq_true_eq]
    constructor
    · rintro ⟨p, ⟨hp, hu⟩, rfl⟩
      exact ⟨hu, p.2, by cases p; exact hp⟩
    · rintro ⟨hu, c, hc⟩
      exact ⟨(l', c), ⟨hc, hu⟩, rfl⟩
  · unfold InstanceStore.remove
    simp only
    haveI : IsTotal Locator (fun a b => List.length b ≤ List.length a) :=
      ⟨fun a b => (Nat.le_total a.length b.length).symm⟩
    haveI : IsTrans Locator (fun a b => List.length b ≤ List.length a) :=
      ⟨fun _ _ _ hab hbc => Nat.le_trans hbc hab⟩
    have hs := List.sorted_insertionSort
      (fun a b : Locator => List.length b ≤ List.length a)
      ((st.instances.filter (fun p => isUnder l p.1)).map Prod.fst)
    exact hs.imp (fun hab hu => eq_of_isUnder_of_length_le hu hab)

/-- Witness for C5: removing the sample store's only instance empties the
subtree and its destruction order. -/
theorem remove_destroys_subtree_witness :
    (∀ s : Locator,
      (sampleStore.remove ["assets", "mat1"]).1.resolve
        (["assets", "mat1"] ++ s) = none) ∧
    (∀ l' : Locator, isUnder ["assets", "mat1"] l' = false →
      (sampleStore.remove ["assets", "mat1"]).1.resolve l' =
        sampleStore.resolve l') ∧
    (∀ l' : Locator, l' ∈ (sampleStore.remove ["assets", "mat1"]).2 ↔
      (isUnder ["assets", "mat1"] l' = true ∧
        ∃ c, (l', c) ∈ sampleStore.instances)) ∧
    (sampleStore.remove ["assets", "mat1"]).2.Pairwise
      (fun a b => isUnder a b = true → a = b) :=
  remove_destroys_subtree sampleStore ["assets", "mat1"]
    ⟨⟨0, sampleData⟩, List.mem_singleton.mpr rfl⟩

/-- Modelled from the spec: the error surface of the asset-loader facade:
either the registry/construction step or the instance-store step failed. -/
inductive LoadError where
  | registry (e : RegistryError) : LoadError
  | store (e : StoreError) : LoadError

/-- Modelled from the spec: the asset-loader facade (`load_*`): look up
the factory in the registry, construct the instance from the
configuration, insert it into the instance store under a locator, and
return the locator; any failure is surfaced synchronously and the store
is returned unchanged (spec sections 2, 4.4 and 7). -/
def loadAsset (r : Registry) (st : InstanceStore) (k : ImplementationKey)
    (parent : Locator) (name : String) (config : ConfigValue) :
    InstanceStore × Except LoadError Locator :=
  match r.create k config with
  | .error e => (st, .error (.registry e))
  | .ok d =>
    match st.insert parent name d with
    | .error e => (st, .error (.store e))
    | .ok (st', loc) => (st', .ok loc)

/-- C6: asset loading is atomic: when the construct step of a new
component rejects the configuration, the error is surfaced synchronously
to the caller and the instance store is unchanged, so `resolve` answers
exactly as before and no half-constructed instance is reachable. -/
theorem load_failure_leaves_store_unchanged (r : Registry)
    (st : InstanceStore) (k : ImplementationKey) (parent : Locator)
    (name : String) (config : ConfigValue) (f : Factory) (e : ValidationError)
    (hf : r.lookup k = some f) (he : f config = .error e) :
    loadAsset r st k parent name config =
      (st, .error (.registry (.construction e))) ∧
    ∀ l, (loadAsset r st k parent name config).1.resolve l = st.resolve l := by
  have hcreate : r.create k config = .error (.construction e) := by
    rw [create_eq_applyFactory r k f hf]
    unfold applyFactory
    rw [he]
  have hmain : loadAsset r st k parent name config =
      (st, .error (.registry (.construction e))) := by
    unfold loadAsset
    rw [hcreate]
  exact ⟨hmain, fun l => by rw [hmain]⟩

/-- Witness for C6: loading with a factory that demands a missing `color`
field fails and leaves the sample store untouched. -/
theorem load_failure_leaves_store_unchanged_witness :
    loadAsset ⟨[(("material", "constant"), factoryB)]⟩ sampleStore
      ("material", "constant") ["assets"] "mat2" (.obj []) =
      (sampleStore, .error (.registry (.construction (.missingField "color")))) ∧
    ∀ l, (loadAsset ⟨[(("material", "constant"), factoryB)]⟩ sampleStore
      ("material", "constant") ["assets"] "mat2" (.obj [])).1.resolve l =
      sampleStore.resolve l :=
  load_failure_leaves_store_unchanged ⟨[(("material", "constant"), factoryB)]⟩
    sampleStore ("material", "constant") ["assets"] "mat2" (.obj [])
    factoryB (.missingField "color") rfl rfl

/-- C10: a successful `load_*` facade call returns a handle whose locator
is the inserted child path, and that locator — the value other components
accept in their configuration mappings as a weak cross-reference —
resolves back to the very instance that was created and inserted. -/
theorem load_handle_locator_resolves_back (r : Registry)
    (st st' : InstanceStore) (k : ImplementationKey) (parent : Locator)
    (name : String) (config : ConfigValue) (loc : Locator)
    (h : loadAsset r st k parent name config = (st', .ok loc)) :
    loc = parent ++ [name] ∧
    ∃ d, r.create k config = .ok d ∧
      st'.resolve loc = some ⟨st.nextId, d⟩ := by
  unfold loadAsset at h
  cases hcreate : r.create k config with
  | error e =>
    rw [hcreate] at h
    simp only [Prod.mk.injEq] at h
    exact absurd h.2 (by simp)
  | ok d =>
    rw [hcreate] at h
    have h' : (match st.insert parent name d with
        | .error e => (st, Except.error (LoadError.store e))
        | .ok (st', loc) => (st', Except.ok loc)) = (st', Except.ok loc) := h
    cases hins : st.insert parent name d with
    | error e =>
      rw [hins] at h'
      simp only [Prod.mk.injEq] at h'
      exact absurd h'.2 (by simp)
    | ok p =>
      rw [hins] at h'
      obtain ⟨st'', loc''⟩ := p
      simp only [Prod.mk.injEq, Except.ok.injEq] at h'
      obtain ⟨rfl, rfl⟩ := h'
      obtain ⟨hloc, _, hinst, _⟩ := insert_eq_ok hins
      refine ⟨hloc, d, rfl, ?_⟩
      unfold InstanceStore.resolve
      rw [hinst, hloc]
      simp [List.find?]

/-- Witness for C10: loading the custom material into the empty store
yields locator `$.assets.mat1` and resolving it returns the instance. -/
theorem load_handle_locator_resolves_back_witness :
    (["assets", "mat1"] : Locator) = ["assets"] ++ ["mat1"] ∧
    ∃ d, sampleRegistry.create ("material", "visualize_normal") (.obj []) =
        .ok d ∧
      InstanceStore.resolve
        (loadAsset sampleRegistry ⟨[], 0⟩ ("material", "visualize_normal")
          ["assets"] "mat1" (.obj [])).1 ["assets", "mat1"] = some ⟨0, d⟩ :=
  load_handle_locator_resolves_back sampleRegistry ⟨[], 0⟩
    (loadAsset sampleRegistry ⟨[], 0⟩ ("material", "visualize_normal")
      ["assets"] "mat1" (.obj [])).1
    ("material", "visualize_normal") ["assets"] "mat1" (.obj [])
    ["assets", "mat1"] rfl

/-- Modelled from the spec: a component variant's capability contract
(spec section 4.4): a construct validator that stores the fields relevant
to the variant, a flag saying whether the variant claims the optional
serialize capability, and the serialize operation (inverse of construct),
producing a configuration from the stored queryable fields. -/
structure Variant where
  key : ImplementationKey
  construct : ConfigValue → Except ValidationError ConfigValue
  claimsSerialize : Bool
  serialize : ConfigValue → ConfigValue

/-- Modelled from the spec: the pinhole camera variant validates presence
of its position/center/up/vfov fields and stores them (spec section 4.4). -/
def pinholeConstruct (config : ConfigValue) :
    Except ValidationError ConfigValue :=
  match config.getField "position" with
  | none => .error (.missingField "position")
  | some p =>
    match config.getField "center" with
    | none => .error (.missingField "center")
    | some c =>
      match config.getField "up" with
      | none => .error (.missingField "up")
      | some u =>
        match config.getField "vfov" with
        | none => .error (.missingField "vfov")
        | some v =>
          .ok (.obj [("position", p), ("center", c), ("up", u), ("vfov", v)])

def pinholeVariant : Variant :=
  ⟨("camera", "pinhole"), pinholeConstruct, true, id⟩

/-- Modelled from the spec: the bitmap film variant validates presence of
its width and height fields and stores them. -/
def bitmapConstruct (config : ConfigValue) :
    Except ValidationError ConfigValue :=
  match config.getField "w" with
  | none => .error (.missingField "w")
  | some w =>
    match config.getField "h" with
    | none => .error (.missingField "h")
    | some h => .ok (.obj [("w", w), ("h", h)])

def bitmapVariant : Variant :=
  ⟨("film", "bitmap"), bitmapConstruct, true, id⟩

/-- Modelled from the spec: the plugin's visualize_normal material accepts
any configuration (the example constructs it from `{}`) and stores no
queryable fields. -/
def visualizeNormalConstruct (_ : ConfigValue) :
    Except ValidationError ConfigValue :=
  .ok (.obj [])

def visualizeNormalVariant : Variant :=
  ⟨("material", "visualize_normal"), visualizeNormalConstruct, true, id⟩

/-- Modelled from the spec: the variants of the example pipeline that
claim the serialize capability. -/
def modelVariants : List Variant :=
  [pinholeVariant, bitmapVariant, visualizeNormalVariant]

theorem pinhole_roundtrip (config st : ConfigValue)
    (h : pinholeConstruct config = .ok st) : pinholeConstruct st = .ok st := by
  unfold pinholeConstruct at h
  cases hp : config.getField "position" with
  | none => rw [hp] at h; exact absurd h (by simp)
  | some p =>
    rw [hp] at h
    cases hc : config.getField "center" with
    | none => rw [hc] at h; exact absurd h (by simp)
    | some c =>
      rw [hc] at h
      cases hu : config.getField "up" with
      | none => rw [hu] at h; exact absurd h (by simp)
      | some u =>
        rw [hu] at h
        cases hv : config.getField "vfov" with
        | none => rw [hv] at h; exact absurd h (by simp)
        | some v =>
          rw [hv] at h
          simp only [Except.ok.injEq] at h
          subst h
          simp [pinholeConstruct, ConfigValue.getField, List.find?]

theorem bitmap_roundtrip (config st : ConfigValue)
    (h : bitmapConstruct config = .ok st) : bitmapConstruct st = .ok st := by
  unfold bitmapConstruct at h
  cases hw : config.getField "w" with
  | none => rw [hw] at h; exact absurd h (by simp)
  | some w =>
    rw [hw] at h
    cases hh : config.getField "h" with
    | none => rw [hh] at h; exact absurd h (by simp)
    | some hfield =>
      rw [hh] at h
      simp only [Except.ok.injEq] at h
      subst h
      simp [bitmapConstruct, ConfigValue.getField, List.find?]

/-- C7: serialization round-trips: for every modelled variant that claims
the serialize capability and every configuration its construct accepts,
constructing again from the serialized state succeeds and stores exactly
the same queryable fields. -/
theorem serialize_roundtrip (v : Variant) (hv : v ∈ modelVariants)
    (_hcap : v.claimsSerialize = true) (config st : ConfigValue)
    (h : v.construct config = .ok st) :
    v.construct (v.serialize (st)) = .ok st := by
  unfold modelVariants at hv
  rcases List.mem_cons.mp hv with rfl | hv
  · exact pinhole_roundtrip config st h
  rcases List.mem_cons.mp hv with rfl | hv
  · exact bitmap_roundtrip config st h
  rcases List.mem_cons.mp hv with rfl | hv
  · have hst : st = .obj [] := by
      have h' : (Except.ok (ConfigValue.obj []) :
        Except ValidationError ConfigValue) = .ok st := h
      simpa using h'.symm
    subst hst
    rfl
  exact absurd hv (List.not_mem_nil v)

/-- Witness for C7: the pinhole camera of the example round-trips its
configuration. -/
theorem serialize_roundtrip_witness :
    pinholeVariant.construct
      (pinholeVariant.serialize
        (ConfigValue.obj [("position", .arr [.int 5, .int 1, .int (-2)]),
          ("center", .arr [.int 4, .int 1, .int (-2)]),
          ("up", .arr [.int 0, .int 1, .int 0]), ("vfov", .int 43)])) =
      .ok (ConfigValue.obj [("position", .arr [.int 5, .int 1, .int (-2)]),
        ("center", .arr [.int 4, .int 1, .int (-2)]),
        ("up", .arr [.int 0, .int 1, .int 0]), ("vfov", .int 43)]) :=
  serialize_roundtrip pinholeVariant (List.mem_cons_self _ _) rfl
    (ConfigValue.obj [("position", .arr [.int 5, .int 1, .int (-2)]),
      ("center", .arr [.int 4, .int 1, .int (-2)]),
      ("up", .arr [.int 0, .int 1, .int 0]), ("vfov", .int 43)])
    (ConfigValue.obj [("position", .arr [.int 5, .int 1, .int (-2)]),
      ("center", .arr [.int 4, .int 1, .int (-2)]),
      ("up", .arr [.int 0, .int 1, .int 0]), ("vfov", .int 43)]) rfl

/-- Modelled from the spec: a primitive specification passed to
`add_primitive`: optional camera and model locators (spec section 4.5,
matching `scene.add_primitive({'camera': ...})` in the example). -/
structure PrimitiveSpec where
  camera : Option Locator
  model : Option Locator

/-- Modelled from the spec: `BuildError` (the scene graph cannot construct
its spatial index, e.g. no accelerator attached; spec section 7). -/
inductive BuildError where
  | noAccel : BuildError

/-- Modelled from the spec: a query against a scene graph that is not in
the Built state is rejected (spec sections 4.5 and 7). -/
inductive QueryError where
  | notBuilt : QueryError

/-- Modelled from the spec: the scene graph aggregate: the attached
accelerator locator, the primitive list, and whether the spatial index is
currently built (the Empty/Populated/Built state machine of section 4.5:
Built exactly when `built = true`). -/
structure SceneGraph where
  accel : Option Locator
  primitives : List PrimitiveSpec
  built : Bool

namespace SceneGraph

/-- Modelled from the spec: a freshly loaded scene graph in the Empty
state, with its configured accelerator locator. -/
def empty (accel : Option Locator) : SceneGraph := ⟨accel, [], false⟩

/-- Modelled from the spec: `add_primitive` appends to the primitive list
and invalidates the spatial index, moving the graph out of Built. -/
def addPrimitive (g : SceneGraph) (p : PrimitiveSpec) : SceneGraph :=
  ⟨g.accel, g.primitives ++ [p], false⟩

/-- Modelled from the spec: `build()` delegates to the attached
accelerator to construct the spatial index over the current primitive set
and transitions the graph to Built; fails with `BuildError` if no
accelerator is attached. -/
def build (g : SceneGraph) : Except BuildError SceneGraph :=
  match g.accel with
  | none => .error .noAccel
  | some _ => .ok ⟨g.accel, g.primitives, true⟩

/-- Modelled from the spec: `query` is valid only after `build()`: it
rejects when the graph is not Built, and otherwise delegates to the
accelerator's traversal over the indexed primitives. -/
def query (g : SceneGraph) : Except QueryError (List PrimitiveSpec) :=
  if g.built then .ok g.primitives else .error .notBuilt

end SceneGraph

/-- C8: the scene-graph state machine: a query before any build is
rejected; after at least one `add_primitive` followed by a successful
`build`, a query succeeds over a nonempty primitive set; and any
`add_primitive` issued after a build moves the graph out of Built, so a
query before the next build is rejected again — stale queries are never
silently permitted. -/
theorem scene_state_machine :
    (∀ a : Option Locator, (SceneGraph.empty a).query = .error .notBuilt) ∧
    (∀ (a : Locator) (p : PrimitiveSpec) (g : SceneGraph),
      g.accel = some a →
      ∃ g', (g.addPrimitive p).build = .ok g' ∧
        ∃ res, g'.query = .ok res ∧ res ≠ []) ∧
    (∀ (g : SceneGraph) (p : PrimitiveSpec),
      (g.addPrimitive p).built = false ∧
      (g.addPrimitive p).query = .error .notBuilt) := by
  refine ⟨fun a => rfl, ?_, fun g p => ⟨rfl, rfl⟩⟩
  intro a p g ha
  refine ⟨⟨g.accel, g.primitives ++ [p], true⟩, ?_, g.primitives ++ [p], rfl, by simp⟩
  unfold SceneGraph.addPrimitive SceneGraph.build
  rw [ha]

/-- Witness for C8: the example's scene (`sahbvh` accelerator under
`$.assets.accel`) accepts a camera primitive and becomes queryable. -/
theorem scene_state_machine_witness :
    ∃ g', ((SceneGraph.empty (some ["assets", "accel"])).addPrimitive
        ⟨some ["assets", "camera1"], none⟩).build = .ok g' ∧
      ∃ res, g'.query = .ok res ∧ res ≠ [] :=
  scene_state_machine.2.1 ["assets", "accel"]
    ⟨some ["assets", "camera1"], none⟩
    (SceneGraph.empty (some ["assets", "accel"])) rfl

/-- Modelled from the spec: the platform's native dynamic-library suffix,
appended by the loader to extension-free plugin paths (spec section 6). -/
structure Platform where
  dylibSuffix : String

/-- Modelled from the spec: a loadable dynamic module.  Its registration
entry point, when present and compatible, provides the list of
implementations the plugin registers; `none` models an absent or
incompatible entry point. -/
structure PluginModule where
  entry : Option (List (ImplementationKey × Factory))

/-- Modelled from the spec: the dynamic-library files visible to the
loader, keyed by full file path. -/
structure ModuleFileSystem where
  files : List (String × PluginModule)

/-- Modelled from the spec: `PluginLoadError` (missing file, or
absent/incompatible entry point; spec sections 4.2 and 7). -/
inductive PluginLoadError where
  | missingFile (path : String) : PluginLoadError
  | incompatibleEntry (path : String) : PluginLoadError

/-- Modelled from the spec: the handle recorded for later unloading: the
resolved path and the keys the plugin contributed. -/
structure PluginHandle where
  path : String
  keys : List ImplementationKey

/-- Modelled from the spec: the registration entry point calls
`Registry.register` (no override) for each implementation the plugin
provides, in order. -/
def registerAll (r : Registry) : List (ImplementationKey × Factory) → Registry
  | [] => r
  | (k, f) :: rest =>
    match r.register k f false with
    | .ok r' => registerAll r' rest
    | .error _ => registerAll r rest

/-- Modelled from the spec: `load(pathWithoutExtension)` appends the
platform's native dynamic-library suffix, loads the module, invokes its
registration entry point and records a handle; fails with
`PluginLoadError` when the resolved file is missing or the entry point is
absent/incompatible. -/
def loadPlugin (fs : ModuleFileSystem) (plat : Platform) (r : Registry)
    (path : String) : Except PluginLoadError (Registry × PluginHandle) :=
  match fs.files.find? (fun p => p.1 = path ++ plat.dylibSuffix) with
  | none => .error (.missingFile (path ++ plat.dylibSuffix))
  | some (_, m) =>
    match m.entry with
    | none => .error (.incompatibleEntry (path ++ plat.dylibSuffix))
    | some provides =>
      .ok (registerAll r provides, ⟨path ++ plat.dylibSuffix, provides.map Prod.fst⟩)

theorem lookup_mk_cons_of_ne (entries : List (ImplementationKey × Factory))
    (j : ImplementationKey) (g : Factory) (k : ImplementationKey)
    (h : ¬ j = k) :
    (Registry.mk ((j, g) :: entries)).lookup k =
      Registry.lookup ⟨entries⟩ k := by
  unfold Registry.lookup
  simp [List.find?, h]

theorem registerAll_lookup_of_not_mem (r : Registry)
    (l : List (ImplementationKey × Factory)) (k : ImplementationKey)
    (hk : k ∉ l.map Prod.fst) :
    (registerAll r l).lookup k = r.lookup k := by
  induction l generalizing r with
  | nil => rfl
  | cons x rest ih =>
    obtain ⟨j, g⟩ := x
    simp only [List.map_cons, List.mem_cons] at hk
    push_neg at hk
    obtain ⟨hkj, hkrest⟩ := hk
    unfold registerAll
    cases hreg : r.register j g false with
    | error e => exact ih r hkrest
    | ok r' =>
      rw [ih r' hkrest]
      unfold Registry.register at hreg
      by_cases hany : r.entries.any (fun p => p.1 = j) = true
      · simp [hany] at hreg
      · have hany' : r.entries.any (fun p => p.1 = j) = false :=
          Bool.eq_false_iff.mpr hany
        simp only [hany', Bool.false_eq_true, if_false, Except.ok.injEq] at hreg
        subst hreg
        rw [lookup_mk_cons_of_ne r.entries j g k (fun hh => hkj hh.symm)]

theorem registerAll_registers (r : Registry)
    (l : List (ImplementationKey × Factory))
    (hnd : (l.map Prod.fst).Nodup)
    (hfresh : ∀ kf ∈ l, r.lookup kf.1 = none) :
    ∀ kf ∈ l, (registerAll r l).lookup kf.1 = some kf.2 := by
  induction l generalizing r with
  | nil => intro kf hkf; exact absurd hkf (List.not_mem_nil kf)
  | cons x rest ih =>
    obtain ⟨j, g⟩ := x
    simp only [List.map_cons, List.nodup_cons] at hnd
    obtain ⟨hjrest, hndrest⟩ := hnd
    have hjfresh : r.lookup j = none := hfresh (j, g) (List.mem_cons_self _ _)
    have hany : r.entries.any (fun p => p.1 = j) = false := by
      cases hany : r.entries.any (fun p => p.1 = j) with
      | false => rfl
      | true =>
        obtain ⟨p, hp, hpj⟩ := List.any_eq_true.mp hany
        simp only [decide_eq_true_eq] at hpj
        unfold Registry.lookup at hjfresh
        cases hfind : r.entries.find? (fun q => q.1 = j) with
        | none =>
          have := List.find?_eq_none.mp hfind p hp
          simp [hpj] at this
        | some q => rw [hfind] at hjfresh; simp at hjfresh
    have hreg : r.register j g false = .ok ⟨(j, g) :: r.entries⟩ := by
      unfold Registry.register
      simp [hany]
    have hlook : (Registry.mk ((j, g) :: r.entries)).lookup j = some g := by
      unfold Registry.lookup
      simp [List.find?]
    intro kf hkf
    rcases List.mem_cons.mp hkf with h1 | hkrest
    · subst h1
      unfold registerAll
      rw [hreg]
      dsimp only
      rw [registerAll_lookup_of_not_mem _ rest j hjrest]
      exact hlook
    · unfold registerAll
      rw [hreg]
      apply ih ⟨(j, g) :: r.entries⟩ hndrest _ kf hkrest
      intro kf' hkf'
      have hne : kf'.1 ≠ j := by
        intro hh
        exact hjrest (hh ▸ List.mem_map.mpr ⟨kf', hkf', rfl⟩)
      have hres := hfresh kf' (List.mem_cons_of_mem _ hkf')
      rw [lookup_mk_cons_of_ne r.entries j g kf'.1 (fun hh => hne hh.symm)]
      exact hres

/-- C9: plugin loading appends the platform's native dynamic-library
suffix to the extension-free path, fails with `PluginLoadError` exactly
when the resolved file is missing or its registration entry point is
absent/incompatible, and otherwise invokes the entry point — registering
every implementation key the plugin provides — and returns a handle
recording the resolved path and the contributed keys. -/
theorem plugin_load_spec (fs : ModuleFileSystem) (plat : Platform)
    (r : Registry) (path : String) :
    ((∃ e, loadPlugin fs plat r path = .error e) ↔
      (fs.files.find? (fun p => p.1 = path ++ plat.dylibSuffix) = none ∨
        ∃ m, fs.files.find? (fun p => p.1 = path ++ plat.dylibSuffix) =
          some m ∧ m.2.entry = none)) ∧
    (∀ m provides,
      fs.files.find? (fun p => p.1 = path ++ plat.dylibSuffix) = some m →
      m.2.entry = some provides →
      loadPlugin fs plat r path = .ok (registerAll r provides,
        ⟨path ++ plat.dylibSuffix, provides.map Prod.fst⟩) ∧
      ((provides.map Prod.fst).Nodup →
        (∀ kf ∈ provides, r.lookup kf.1 = none) →
        ∀ kf ∈ provides,
          (registerAll r provides).lookup kf.1 = some kf.2)) := by
  constructor
  · unfold loadPlugin
    cases hfind : fs.files.find? (fun p => p.1 = path ++ plat.dylibSuffix) with
    | none => simp
    | some m =>
      obtain ⟨mp, mm⟩ := m
      cases hentry : mm.entry with
      | none => simp [hentry]
      | some provides => simp [hentry]
  · intro m provides hfind hentry
    constructor
    · obtain ⟨mp, mm⟩ := m
      simp only at hentry
      unfold loadPlugin
      rw [hfind]
      show (match mm.entry with
        | none => Except.error
            (PluginLoadError.incompatibleEntry (path ++ plat.dylibSuffix))
        | some provides =>
          Except.ok (registerAll r provides,
            PluginHandle.mk (path ++ plat.dylibSuffix)
              (provides.map Prod.fst))) =
        Except.ok (registerAll r provides,
          PluginHandle.mk (path ++ plat.dylibSuffix) (provides.map Prod.fst))
      rw [hentry]
    · intro hnd hfresh
      exact registerAll_registers r provides hnd hfresh

/-- A concrete module file system holding the example's
`functest_material_visualize_normal` plugin, Linux platform suffix. -/
def samplePlugin : PluginModule :=
  ⟨some [(("material", "visualize_normal"), factoryA)]⟩

def sampleFS : ModuleFileSystem :=
  ⟨[("functest_material_visualize_normal.so", samplePlugin)]⟩

/-- Witness for C9: loading the example plugin on a platform with suffix
`.so` resolves the file, invokes the entry point and returns the handle. -/
theorem plugin_load_spec_witness :
    loadPlugin sampleFS ⟨".so"⟩ ⟨[]⟩ "functest_material_visualize_normal" =
      .ok (registerAll ⟨[]⟩ [(("material", "visualize_normal"), factoryA)],
        ⟨"functest_material_visualize_normal" ++ ".so",
          [("material", "visualize_normal")]⟩) ∧
    ((([(("material", "visualize_normal"), factoryA)].map Prod.fst)).Nodup →
      (∀ kf ∈ [(("material", "visualize_normal"), factoryA)],
        (Registry.mk []).lookup kf.1 = none) →
      ∀ kf ∈ [(("material", "visualize_normal"), factoryA)],
        (registerAll ⟨[]⟩
          [(("material", "visualize_normal"), factoryA)]).lookup kf.1 =
          some kf.2) :=
  (plugin_load_spec sampleFS ⟨".so"⟩ ⟨[]⟩
    "functest_material_visualize_normal").2
    ("functest_material_visualize_normal.so", samplePlugin)
    [(("material", "visualize_normal"), factoryA)] rfl rfl

end Lightmetrica
